import Mathlib

/-!
Verification of the USAspending API client (`usaspending_api.py`, `examples.py`).

The development shallowly embeds the data model and operations of the script:

* JSON values (`JVal`) stand for the Python dictionaries/lists/scalars that the
  script passes around (JSON numbers are modelled as integers, which covers
  every value the script constructs or the claims mention).
* `json_dumps` / `json_loads` model the standard library's `json.dump` and
  `json.load` (compact form, i.e. modulo pretty-print whitespace, with string
  escaping for quotes, backslashes and control characters).
* `fetch_request` / `fetch_handle` model `fetch_spending_data`: payload
  construction, `requests.post`, `raise_for_status` (which raises exactly for
  statuses 400-599), `response.json()`, and the `except RequestException`
  error handling.  Python exceptions that escape the function are modelled by
  `Except.error`; `print` calls are modelled as an emitted `LogMsg` list.
* `save_to_json` / `save_to_csv` model the two exporters, including
  `csv.DictWriter` with its default `extrasaction='raise'` behaviour
  (a row key outside `fieldnames` raises `ValueError`; a missing key is
  filled with the empty-string `restval`).
-/

/-- JSON values (Python dicts are association lists in insertion order;
numbers restricted to integers, which covers everything the script builds). -/
inductive JVal where
  | null : JVal
  | bool : Bool → JVal
  | num : Int → JVal
  | str : String → JVal
  | arr : List JVal → JVal
  | obj : List (String × JVal) → JVal

/-- Python exceptions that the script can let escape. -/
inductive PyError where
  | valueError : PyError
  | typeError : PyError
  | attributeError : PyError
  | keyError : PyError
deriving DecidableEq, Repr

/-- Messages the script prints, abstracted from their exact text. -/
inductive LogMsg where
  | fetching : Int → LogMsg
  | success : Nat → LogMsg
  | fetchError : LogMsg
  | apiErrorDetail : JVal → LogMsg
  | noResults : LogMsg
  | savedTo : String → LogMsg

mutual

/-- Structural equality test on JSON values (Python `==` on parsed JSON). -/
def JVal.beq : JVal → JVal → Bool
  | JVal.null, JVal.null => true
  | JVal.bool a, JVal.bool b => a == b
  | JVal.num a, JVal.num b => a == b
  | JVal.str a, JVal.str b => a == b
  | JVal.arr a, JVal.arr b => JVal.beqList a b
  | JVal.obj a, JVal.obj b => JVal.beqObj a b
  | _, _ => false

def JVal.beqList : List JVal → List JVal → Bool
  | [], [] => true
  | a :: as, b :: bs => JVal.beq a b && JVal.beqList as bs
  | _, _ => false

def JVal.beqObj : List (String × JVal) → List (String × JVal) → Bool
  | [], [] => true
  | (k1, v1) :: as, (k2, v2) :: bs => k1 == k2 && JVal.beq v1 v2 && JVal.beqObj as bs
  | _, _ => false

end

instance : BEq JVal := ⟨JVal.beq⟩

/-- Decimal digits of a natural number, most significant first
(the digits `str(n)` produces for a non-negative Python int). -/
def natChars (n : Nat) : List Char :=
  if _h : n < 10 then [Nat.digitChar n]
  else natChars (n / 10) ++ [Nat.digitChar (n % 10)]
decreasing_by exact Nat.div_lt_self (by omega) (by omega)

/-- Characters `str(i)` produces for a Python int. -/
def intChars (i : Int) : List Char :=
  if i < 0 then '-' :: natChars i.natAbs else natChars i.toNat

/-- JSON escape of one character, as `json.dump` emits it: quote and backslash
get a backslash escape, control characters a `\u00XX` escape, the rest pass
through. -/
def escapeChar (c : Char) : List Char :=
  if c = '"' then ['\\', '"']
  else if c = '\\' then ['\\', '\\']
  else if c.toNat < 32 then
    ['\\', 'u', '0', '0', Nat.digitChar (c.toNat / 16), Nat.digitChar (c.toNat % 16)]
  else [c]

/-- A JSON string literal: quote, escaped content, quote. -/
def escapeString (s : String) : List Char :=
  '"' :: (s.data.flatMap escapeChar ++ ['"'])

mutual

/-- Serialization of a JSON value, modelling `json.dump` modulo the
pretty-print whitespace `indent=2` inserts. -/
def dumpVal : JVal → List Char
  | JVal.null => ['n', 'u', 'l', 'l']
  | JVal.bool true => ['t', 'r', 'u', 'e']
  | JVal.bool false => ['f', 'a', 'l', 's', 'e']
  | JVal.num i => intChars i
  | JVal.str s => escapeString s
  | JVal.arr xs => '[' :: (dumpArr xs ++ [']'])
  | JVal.obj kvs => '\x7b' :: (dumpObj kvs ++ ['\x7d'])

/-- Comma-separated serialization of array elements. -/
def dumpArr : List JVal → List Char
  | [] => []
  | [x] => dumpVal x
  | x :: y :: xs => dumpVal x ++ ',' :: dumpArr (y :: xs)

/-- Comma-separated serialization of object members. -/
def dumpObj : List (String × JVal) → List Char
  | [] => []
  | [(k, v)] => escapeString k ++ ':' :: dumpVal v
  | (k, v) :: m :: kvs => escapeString k ++ ':' :: dumpVal v ++ ',' :: dumpObj (m :: kvs)

end

/-- Value of a hexadecimal digit character, as `json.load` reads `\uXXXX`. -/
def hexVal (c : Char) : Option Nat :=
  if c.isDigit then some (c.toNat - 48)
  else if 'a' ≤ c ∧ c ≤ 'f' then some (c.toNat - 87)
  else if 'A' ≤ c ∧ c ≤ 'F' then some (c.toNat - 55)
  else none

/-- The character named by a simple JSON backslash escape. -/
def unescape (e : Char) : Option Char :=
  if e = '"' then some '"'
  else if e = '\\' then some '\\'
  else if e = '/' then some '/'
  else if e = 'b' then some '\x08'
  else if e = 'f' then some '\x0c'
  else if e = 'n' then some '\n'
  else if e = 'r' then some '\x0d'
  else if e = 't' then some '\t'
  else none

/-- Reads the body of a JSON string literal (after the opening quote) up to and
including the closing quote; returns the decoded characters and the rest of
the input. -/
def parseStringBody : List Char → Option (List Char × List Char)
  | [] => none
  | c :: cs =>
    if c = '"' then some ([], cs)
    else if c = '\\' then
      match cs with
      | [] => none
      | e :: cs2 =>
        if e = 'u' then
          match cs2 with
          | a :: b :: a2 :: b2 :: cs3 =>
            match hexVal a, hexVal b, hexVal a2, hexVal b2 with
            | some va, some vb, some vc, some vd =>
              match parseStringBody cs3 with
              | none => none
              | some p => some (Char.ofNat (va * 4096 + vb * 256 + vc * 16 + vd) :: p.1, p.2)
            | _, _, _, _ => none
          | _ => none
        else
          match unescape e with
          | none => none
          | some u =>
            match parseStringBody cs2 with
            | none => none
            | some p => some (u :: p.1, p.2)
    else
      match parseStringBody cs with
      | none => none
      | some p => some (c :: p.1, p.2)

/-- Reads a maximal run of decimal digits, accumulating their value. -/
def parseDigitsAux : List Char → Nat → Nat × List Char
  | [], acc => (acc, [])
  | c :: cs, acc =>
    if c.isDigit then parseDigitsAux cs (acc * 10 + (c.toNat - 48)) else (acc, c :: cs)

mutual

/-- Recursive-descent JSON value reader (fuel-indexed), modelling `json.load`
on compact documents.  Returns the value and the unconsumed input. -/
def parseVal : Nat → List Char → Option (JVal × List Char)
  | 0, _ => none
  | _ + 1, [] => none
  | fuel + 1, c :: cs =>
    if c = 'n' then
      match cs with
      | 'u' :: 'l' :: 'l' :: rest => some (JVal.null, rest)
      | _ => none
    else if c = 't' then
      match cs with
      | 'r' :: 'u' :: 'e' :: rest => some (JVal.bool true, rest)
      | _ => none
    else if c = 'f' then
      match cs with
      | 'a' :: 'l' :: 's' :: 'e' :: rest => some (JVal.bool false, rest)
      | _ => none
    else if c = '"' then
      match parseStringBody cs with
      | none => none
      | some p => some (JVal.str (String.mk p.1), p.2)
    else if c = '[' then
      match parseElems fuel cs with
      | none => none
      | some p => some (JVal.arr p.1, p.2)
    else if c = '\x7b' then
      match parseMembers fuel cs with
      | none => none
      | some p => some (JVal.obj p.1, p.2)
    else if c = '-' then
      match cs with
      | [] => none
      | d :: ds =>
        if d.isDigit then
          let p := parseDigitsAux (d :: ds) 0
          some (JVal.num (-(p.1 : Int)), p.2)
        else none
    else if c.isDigit then
      let p := parseDigitsAux (c :: cs) 0
      some (JVal.num (p.1 : Int), p.2)
    else none

/-- Reads the elements of a JSON array after the opening bracket, consuming
the closing bracket. -/
def parseElems : Nat → List Char → Option (List JVal × List Char)
  | 0, _ => none
  | fuel + 1, input =>
    match input with
    | [] => none
    | c :: cs =>
      if c = ']' then some ([], cs)
      else
        match parseVal fuel (c :: cs) with
        | none => none
        | some (v, rest) =>
          match rest with
          | ',' :: rest2 =>
            match parseElems fuel rest2 with
            | none => none
            | some (vs, rest3) => some (v :: vs, rest3)
          | ']' :: rest2 => some ([v], rest2)
          | _ => none

/-- Reads the members of a JSON object after the opening brace, consuming the
closing brace. -/
def parseMembers : Nat → List Char → Option (List (String × JVal) × List Char)
  | 0, _ => none
  | fuel + 1, input =>
    match input with
    | [] => none
    | c :: cs =>
      if c = '\x7d' then some ([], cs)
      else if c = '"' then
        match parseStringBody cs with
        | none => none
        | some (key, rest1) =>
          match rest1 with
          | ':' :: rest2 =>
            match parseVal fuel rest2 with
            | none => none
            | some (v, rest3) =>
              match rest3 with
              | ',' :: rest4 =>
                match parseMembers fuel rest4 with
                | none => none
                | some (ms, rest5) => some ((String.mk key, v) :: ms, rest5)
              | '\x7d' :: rest4 => some ([(String.mk key, v)], rest4)
              | _ => none
          | _ => none
      else none

end

/-- Serialization of a JSON value to a string, modelling `json.dump`
(modulo pretty-print whitespace). -/
def json_dumps (v : JVal) : String := String.mk (dumpVal v)

/-- Whole-document JSON reading, modelling `json.load`: the document must be a
single value with nothing after it. -/
def json_loads (s : String) : Option JVal :=
  match parseVal (s.length + 1) s.data with
  | some (v, []) => some v
  | _ => none

/-- Python truthiness of a JSON value (`if data:`): `None`, `False`, `0`,
empty string, empty list and empty dict are falsy. -/
def truthy : JVal → Bool
  | JVal.null => false
  | JVal.bool b => b
  | JVal.num n => n != 0
  | JVal.str s => !s.data.isEmpty
  | JVal.arr l => !l.isEmpty
  | JVal.obj kvs => !kvs.isEmpty

/-- Python `data.get(key, default)`: defined on dicts, raises
`AttributeError` on every other value (including `None`). -/
def jget (v : JVal) (k : String) (dflt : JVal) : Except PyError JVal :=
  match v with
  | JVal.obj kvs => Except.ok ((kvs.lookup k).getD dflt)
  | _ => Except.error PyError.attributeError

/-- Python `len(v)`: length of a list, string or dict, `TypeError` otherwise. -/
def pyLen : JVal → Except PyError Nat
  | JVal.arr l => Except.ok l.length
  | JVal.str s => Except.ok s.data.length
  | JVal.obj kvs => Except.ok kvs.length
  | _ => Except.error PyError.typeError

/-- Contiguous-infix test on character lists (Python substring membership). -/
def listInfix (needle : List Char) : List Char → Bool
  | [] => needle.isEmpty
  | c :: t => needle.isPrefixOf (c :: t) || listInfix needle t

/-- Python `key in v`: key test on dicts, membership on lists, substring test
on strings, `TypeError` otherwise. -/
def json_contains (v : JVal) (k : String) : Except PyError Bool :=
  match v with
  | JVal.obj kvs => Except.ok (kvs.lookup k).isSome
  | JVal.arr l => Except.ok (l.contains (JVal.str k))
  | JVal.str s => Except.ok (listInfix k.data s.data)
  | _ => Except.error PyError.typeError

/-- Python iteration over a value, as `list.extend` consumes it: a list yields
its elements, a string its one-character strings, a dict its keys;
anything else raises `TypeError`. -/
def iterElems : JVal → Except PyError (List JVal)
  | JVal.arr l => Except.ok l
  | JVal.str s => Except.ok (s.data.map fun c => JVal.str (String.mk [c]))
  | JVal.obj kvs => Except.ok (kvs.map fun kv => JVal.str kv.1)
  | _ => Except.error PyError.typeError

/-- The default `fields` list substituted by `fetch_spending_data` when the
caller passes none (`usaspending_api.py` lines 33-46). -/
def default_fields : List String :=
  ["Award ID", "Recipient Name", "Start Date", "End Date", "Award Amount",
   "Total Outlays", "Awarding Agency", "Awarding Sub Agency", "Award Type",
   "Funding Agency", "Funding Sub Agency"]

/-- The default `filters` dict substituted by `fetch_spending_data` when the
caller passes none (`usaspending_api.py` lines 49-61). -/
def default_filters : JVal :=
  JVal.obj [("time_period",
    JVal.arr [JVal.obj [("start_date", JVal.str "2024-01-01"),
                        ("end_date", JVal.str "2024-12-31")]])]

/-- The Python default value of the `limit` parameter of
`fetch_spending_data`. -/
def default_limit : Int := 100

/-- The Python default value of the `page` parameter of
`fetch_spending_data`. -/
def default_page : Int := 1

/-- The request payload `fetch_spending_data` builds and POSTs
(`usaspending_api.py` lines 33-71): defaults substituted for omitted filters
and fields, then the literal six-key dict. -/
def fetch_request (filters : Option JVal) (fields : Option (List String))
    (limit page : Int) : JVal :=
  let fieldsV := fields.getD default_fields
  let filtersV := filters.getD default_filters
  JVal.obj [("filters", filtersV),
            ("fields", JVal.arr (fieldsV.map JVal.str)),
            ("limit", JVal.num limit),
            ("page", JVal.num page),
            ("sort", JVal.str "Award Amount"),
            ("order", JVal.str "desc")]

/-- Outcome of the one `requests.post` call: either the request itself raised
a transport-level `RequestException`, or a response with a status code and a
raw text body arrived. -/
inductive HttpResult where
  | netErr : HttpResult
  | resp : Nat → String → HttpResult

/-- The messages printed by the inner best-effort error-detail extraction
(`usaspending_api.py` lines 86-92) in the `HTTPError` case, where
`e.response` is the response: nothing for an empty body, nothing when the
body fails to parse (the bare `except: pass` swallows it), the parsed detail
when it is truthy. -/
def errorDetailLog (body : String) : List LogMsg :=
  if body.data.isEmpty then []
  else
    match json_loads body with
    | none => []
    | some d => if truthy d then [LogMsg.apiErrorDetail d] else []

/-- Response handling of `fetch_spending_data` (lines 74-93): `print`, then
`raise_for_status` (raises exactly for statuses 400-599), `response.json()`
(its decode failure is a `RequestException` and is caught), the success
`print` whose `len(data.get('results', []))` can itself raise uncaught
errors, and the `except RequestException` branch returning `None`. -/
def fetch_handle (page : Int) (r : HttpResult) :
    Except PyError (Option JVal) × List LogMsg :=
  let pre := [LogMsg.fetching page]
  match r with
  | HttpResult.netErr => (Except.ok none, pre ++ [LogMsg.fetchError])
  | HttpResult.resp status body =>
    if 400 ≤ status ∧ status < 600 then
      (Except.ok none, pre ++ [LogMsg.fetchError] ++ errorDetailLog body)
    else
      match json_loads body with
      | none => (Except.ok none, pre ++ [LogMsg.fetchError])
      | some data =>
        match jget data "results" (JVal.arr []) with
        | Except.error e => (Except.error e, pre)
        | Except.ok r =>
          match pyLen r with
          | Except.error e => (Except.error e, pre)
          | Except.ok n => (Except.ok (some data), pre ++ [LogMsg.success n])

/-- `fetch_spending_data` end to end: build the payload, POST it via the
transport oracle `post`, handle the response. -/
def fetch_spending_data (post : JVal → HttpResult) (filters : Option JVal)
    (fields : Option (List String)) (limit page : Int) :
    Except PyError (Option JVal) × List LogMsg :=
  fetch_handle page (post (fetch_request filters fields limit page))

/-- Wall-clock timestamp components as `datetime.now()` yields them. -/
structure DateTime where
  year : Nat
  month : Nat
  day : Nat
  hour : Nat
  minute : Nat
  second : Nat

/-- Two-digit zero-padded rendering (`%m`, `%d`, `%H`, `%M`, `%S`), faithful
for the 0-99 range `datetime` guarantees for those fields. -/
def pad2 (n : Nat) : List Char :=
  [Nat.digitChar (n / 10), Nat.digitChar (n % 10)]

/-- Four-digit zero-padded rendering (`%Y`), faithful for years up to 9999
(`datetime`'s full range). -/
def pad4 (n : Nat) : List Char :=
  [Nat.digitChar (n / 1000), Nat.digitChar (n / 100 % 10),
   Nat.digitChar (n / 10 % 10), Nat.digitChar (n % 10)]

/-- `datetime.now().strftime("%Y%m%d_%H%M%S")`. -/
def strftime_stamp (t : DateTime) : String :=
  String.mk (pad4 t.year ++ pad2 t.month ++ pad2 t.day ++ '_' ::
             (pad2 t.hour ++ pad2 t.minute ++ pad2 t.second))

/-- The auto-generated output filename `usaspending_data_<stamp><ext>`. -/
def autoName (ext : String) (t : DateTime) : String :=
  "usaspending_data_" ++ strftime_stamp t ++ ext

/-- Result of a `save_to_json` call: the returned filename, the file written
(name and serialized content), and the printed messages. -/
structure JsonOutcome where
  ret : String
  file : String × String
  logs : List LogMsg

/-- `save_to_json` (lines 96-106): pick the filename, `json.dump` the whole
structure, print, return the filename.  It never inspects `data`, so a
`None`/`null` input is serialized like any other value. -/
def save_to_json (data : JVal) (filename : Option String) (now : DateTime) :
    JsonOutcome :=
  let fname := filename.getD (autoName ".json" now)
  ⟨fname, (fname, json_dumps data), [LogMsg.savedTo fname]⟩

/-- Result of a `save_to_csv` call that did not raise: the returned value
(`None` or the filename), the file written (name, header row and data rows),
and the printed messages. -/
structure CsvOutcome where
  ret : Option String
  file : Option (String × List (List JVal))
  logs : List LogMsg

/-- One row of `csv.DictWriter.writerows` (default `extrasaction='raise'`,
default `restval=''`): a non-dict row has no `.keys()` (`AttributeError`); a
row key outside `fieldnames` raises `ValueError`; a missing key is filled
with the empty string. -/
def dict_to_row (fieldnames : List String) : JVal → Except PyError (List JVal)
  | JVal.obj kvs =>
    if kvs.all (fun kv => fieldnames.contains kv.1) then
      Except.ok (fieldnames.map fun k => (kvs.lookup k).getD (JVal.str ""))
    else Except.error PyError.valueError
  | _ => Except.error PyError.attributeError

/-- `save_to_csv` (lines 109-131): `data.get('results', [])` (raises
`AttributeError` on non-dict `data`, e.g. `None`); if the result list is
falsy, print and return `None` without writing; otherwise take the header
from the first record's keys and write header plus rows.  A row failure
raises out of the function (no completed file outcome). -/
def save_to_csv (data : JVal) (filename : Option String) (now : DateTime) :
    Except PyError CsvOutcome :=
  let fname := filename.getD (autoName ".csv" now)
  match jget data "results" (JVal.arr []) with
  | Except.error e => Except.error e
  | Except.ok results =>
    if truthy results then
      match results with
      | JVal.arr rows =>
        match rows with
        | [] => Except.error PyError.typeError
        | r0 :: _ =>
          match r0 with
          | JVal.obj kvs0 =>
            let fieldnames := kvs0.map Prod.fst
            match rows.mapM (dict_to_row fieldnames) with
            | Except.error e => Except.error e
            | Except.ok outRows =>
              Except.ok ⟨some fname,
                some (fname, fieldnames.map JVal.str :: outRows),
                [LogMsg.savedTo fname]⟩
          | _ => Except.error PyError.attributeError
      | JVal.str _ => Except.error PyError.attributeError
      | JVal.obj _ => Except.error PyError.keyError
      | _ => Except.error PyError.typeError
    else
      Except.ok ⟨none, none, [LogMsg.noResults]⟩

/-- One iteration of the page loop in `example_4_fetch_multiple_pages`
(`examples.py` lines 107-111): `if data and 'results' in data:
all_results.extend(data.get('results', []))`. -/
def page_step (acc : List JVal) : Option JVal → Except PyError (List JVal)
  | none => Except.ok acc
  | some v =>
    if truthy v then
      match json_contains v "results" with
      | Except.error e => Except.error e
      | Except.ok hasKey =>
        if hasKey then
          match jget v "results" (JVal.arr []) with
          | Except.error e => Except.error e
          | Except.ok rv =>
            match iterElems rv with
            | Except.error e => Except.error e
            | Except.ok elems => Except.ok (acc ++ elems)
        else Except.ok acc
    else Except.ok acc

/-- The client-side concatenation of `example_4_fetch_multiple_pages`
(`examples.py` lines 104-123) over the three fetched pages, in call order. -/
def example_4_results (d1 d2 d3 : Except PyError (Option JVal)) :
    Except PyError (List JVal) :=
  match d1 with
  | Except.error e => Except.error e
  | Except.ok o1 =>
    match page_step [] o1 with
    | Except.error e => Except.error e
    | Except.ok a1 =>
      match d2 with
      | Except.error e => Except.error e
      | Except.ok o2 =>
        match page_step a1 o2 with
        | Except.error e => Except.error e
        | Except.ok a2 =>
          match d3 with
          | Except.error e => Except.error e
          | Except.ok o3 => page_step a2 o3

/-- The `combined_data` structure `example_4_fetch_multiple_pages` builds
from the concatenated results (`examples.py` lines 114-120). -/
def example_4_combined (d1 d2 d3 : Except PyError (Option JVal)) :
    Except PyError JVal :=
  match example_4_results d1 d2 d3 with
  | Except.error e => Except.error e
  | Except.ok rs =>
    Except.ok (JVal.obj [("results", JVal.arr rs),
      ("page_metadata", JVal.obj [("total", JVal.num rs.length),
                                  ("pages", JVal.num 3)])])

/-- True when the input is exhausted or continues with a non-digit, i.e. a
JSON number ending here is read back whole. -/
def nonDigitStart : List Char → Bool
  | [] => true
  | c :: _ => !c.isDigit

theorem char_ofNat_small (c : Char) (h : c.toNat < 32) : Char.ofNat c.toNat = c := by
  have hv : Nat.isValidChar c.toNat := Or.inl (by omega)
  unfold Char.ofNat
  rw [dif_pos hv]
  unfold Char.ofNatAux
  apply Char.ext
  apply UInt32.ext
  simp [UInt32.ofNat', Char.toNat, UInt32.toNat]

theorem digitChar_isDigit (d : Nat) (h : d < 10) : (Nat.digitChar d).isDigit = true := by
  interval_cases d <;> decide

theorem digitChar_toNat (d : Nat) (h : d < 10) : (Nat.digitChar d).toNat = d + 48 := by
  interval_cases d <;> decide

theorem hexVal_digitChar (m : Nat) (h : m < 16) : hexVal (Nat.digitChar m) = some m := by
  interval_cases m <;> decide

theorem natChars_ne_nil (n : Nat) : natChars n ≠ [] := by
  rw [natChars.eq_def]
  split <;> simp

theorem natChars_digits (n : Nat) : ∀ c ∈ natChars n, c.isDigit = true := by
  induction n using Nat.strong_induction_on with
  | _ n ih =>
    rw [natChars.eq_def]
    split
    · next h =>
      intro c hc
      rw [List.mem_singleton] at hc
      subst hc
      exact digitChar_isDigit n h
    · next h =>
      intro c hc
      rw [List.mem_append] at hc
      rcases hc with hc | hc
      · exact ih (n / 10) (Nat.div_lt_self (by omega) (by omega)) c hc
      · rw [List.mem_singleton] at hc
        subst hc
        exact digitChar_isDigit (n % 10) (Nat.mod_lt n (by omega))

theorem natChars_foldl (n : Nat) : ∀ acc : Nat,
    (natChars n).foldl (fun a c => a * 10 + (c.toNat - 48)) acc
      = acc * 10 ^ (natChars n).length + n := by
  induction n using Nat.strong_induction_on with
  | _ n ih =>
    intro acc
    rw [natChars.eq_def]
    split
    · next h =>
      simp [digitChar_toNat n h]
    · next h =>
      rw [List.foldl_append, ih (n / 10) (Nat.div_lt_self (by omega) (by omega)) acc]
      simp [digitChar_toNat (n % 10) (Nat.mod_lt n (by omega))]
      rw [pow_succ]
      have hdm : 10 * (n / 10) + n % 10 = n := by omega
      calc (acc * 10 ^ (natChars (n / 10)).length + n / 10) * 10 + (n % 10)
          = acc * (10 ^ (natChars (n / 10)).length * 10) + (10 * (n / 10) + n % 10) := by
            ring
        _ = acc * (10 ^ (natChars (n / 10)).length * 10) + n := by rw [hdm]

theorem parseDigitsAux_stop (rest : List Char) (acc : Nat)
    (h : nonDigitStart rest = true) : parseDigitsAux rest acc = (acc, rest) := by
  cases rest with
  | nil => rfl
  | cons c cs =>
    have hc : c.isDigit = false := by
      simp [nonDigitStart] at h
      exact h
    simp [parseDigitsAux, hc]

theorem parseDigitsAux_run (ds : List Char) : ∀ (rest : List Char) (acc : Nat),
    (∀ c ∈ ds, c.isDigit = true) → nonDigitStart rest = true →
    parseDigitsAux (ds ++ rest) acc
      = (ds.foldl (fun a c => a * 10 + (c.toNat - 48)) acc, rest) := by
  induction ds with
  | nil =>
    intro rest acc _ hr
    simpa using parseDigitsAux_stop rest acc hr
  | cons c ds ih =>
    intro rest acc hd hr
    have hc : c.isDigit = true := hd c (List.mem_cons_self c ds)
    simp only [List.cons_append, parseDigitsAux, hc, if_pos, List.foldl_cons]
    exact ih rest _ (fun x hx => hd x (List.mem_cons_of_mem c hx)) hr

theorem parseStringBody_escape (l : List Char) : ∀ rest : List Char,
    parseStringBody (l.flatMap escapeChar ++ '"' :: rest) = some (l, rest) := by
  induction l with
  | nil =>
    intro rest
    rw [List.flatMap_nil, List.nil_append]
    unfold parseStringBody
    simp
  | cons c l ih =>
    intro rest
    rw [List.flatMap_cons, List.append_assoc]
    by_cases h1 : c = '"'
    · subst h1
      have he : escapeChar '"' = ['\\', '"'] := by decide
      rw [he, List.cons_append, List.cons_append, List.nil_append]
      unfold parseStringBody
      simp [unescape, ih rest]
    · by_cases h2 : c = '\\'
      · subst h2
        have he : escapeChar '\\' = ['\\', '\\'] := by decide
        rw [he, List.cons_append, List.cons_append, List.nil_append]
        unfold parseStringBody
        simp [unescape, ih rest]
      · by_cases h3 : c.toNat < 32
        · have he : escapeChar c = ['\\', 'u', '0', '0',
              Nat.digitChar (c.toNat / 16), Nat.digitChar (c.toNat % 16)] := by
            rw [escapeChar, if_neg h1, if_neg h2, if_pos h3]
          rw [he]
          simp only [List.cons_append, List.nil_append]
          unfold parseStringBody
          have e1 : hexVal (Nat.digitChar (c.toNat / 16)) = some (c.toNat / 16) :=
            hexVal_digitChar _ (by omega)
          have e2 : hexVal (Nat.digitChar (c.toNat % 16)) = some (c.toNat % 16) :=
            hexVal_digitChar _ (by omega)
          have e0 : hexVal '0' = some 0 := by decide
          simp only [e0, e1, e2, ih rest]
          have hsum : 0 * 4096 + 0 * 256 + c.toNat / 16 * 16 + c.toNat % 16 = c.toNat := by
            omega
          rw [hsum, char_ofNat_small c h3]
          simp
        · have he : escapeChar c = [c] := by
            rw [escapeChar, if_neg h1, if_neg h2, if_neg h3]
          rw [he, List.cons_append, List.nil_append]
          unfold parseStringBody
          rw [if_neg h1, if_neg h2]
          simp [ih rest]

theorem natChars_cons (n : Nat) : ∃ c cs, natChars n = c :: cs ∧ c.isDigit = true := by
  cases h : natChars n with
  | nil => exact absurd h (natChars_ne_nil n)
  | cons c cs =>
    refine ⟨c, cs, rfl, natChars_digits n c ?_⟩
    rw [h]
    exact List.mem_cons_self c cs

theorem dumpVal_cons (v : JVal) : ∃ c cs, dumpVal v = c :: cs ∧ c ≠ ']' := by
  cases v with
  | null => exact ⟨'n', ['u', 'l', 'l'], by simp [dumpVal], by decide⟩
  | bool b =>
    cases b with
    | false => exact ⟨'f', ['a', 'l', 's', 'e'], by simp [dumpVal], by decide⟩
    | true => exact ⟨'t', ['r', 'u', 'e'], by simp [dumpVal], by decide⟩
  | num i =>
    by_cases hi : i < 0
    · exact ⟨'-', natChars i.natAbs, by simp [dumpVal, intChars, hi], by decide⟩
    · obtain ⟨c, cs, hc, hd⟩ := natChars_cons i.toNat
      refine ⟨c, cs, by simp [dumpVal, intChars, hi, hc], ?_⟩
      intro e
      exact absurd (e ▸ hd) (by decide)
  | str s =>
    exact ⟨'"', s.data.flatMap escapeChar ++ ['"'], by simp [dumpVal, escapeString], by decide⟩
  | arr xs => exact ⟨'[', dumpArr xs ++ [']'], by simp [dumpVal], by decide⟩
  | obj kvs => exact ⟨'\x7b', dumpObj kvs ++ ['\x7d'], by simp [dumpVal], by decide⟩

theorem dumpVal_length_pos (v : JVal) : 1 ≤ (dumpVal v).length := by
  obtain ⟨c, cs, hc, _⟩ := dumpVal_cons v
  rw [hc]
  simp

theorem parseVal_digitHead (f : Nat) (c : Char) (cs : List Char) (hd : c.isDigit = true) :
    parseVal (f + 1) (c :: cs)
      = some (JVal.num ((parseDigitsAux (c :: cs) 0).1 : Int),
              (parseDigitsAux (c :: cs) 0).2) := by
  have h1 : ¬c = 'n' := fun e => absurd (e ▸ hd) (by decide)
  have h2 : ¬c = 't' := fun e => absurd (e ▸ hd) (by decide)
  have h3 : ¬c = 'f' := fun e => absurd (e ▸ hd) (by decide)
  have h4 : ¬c = '"' := fun e => absurd (e ▸ hd) (by decide)
  have h5 : ¬c = '[' := fun e => absurd (e ▸ hd) (by decide)
  have h6 : ¬c = '\x7b' := fun e => absurd (e ▸ hd) (by decide)
  have h7 : ¬c = '-' := fun e => absurd (e ▸ hd) (by decide)
  simp only [parseVal, if_neg h1, if_neg h2, if_neg h3, if_neg h4, if_neg h5, if_neg h6,
    if_neg h7]
  simp [hd]

theorem parseDigitsAux_natChars (n : Nat) (rest : List Char)
    (hr : nonDigitStart rest = true) :
    parseDigitsAux (natChars n ++ rest) 0 = (n, rest) := by
  rw [parseDigitsAux_run (natChars n) rest 0 (natChars_digits n) hr, natChars_foldl]
  simp

theorem parseVal_intChars (f : Nat) (i : Int) (rest : List Char)
    (hr : nonDigitStart rest = true) :
    parseVal (f + 1) (intChars i ++ rest) = some (JVal.num i, rest) := by
  by_cases hi : i < 0
  · rw [intChars, if_pos hi]
    obtain ⟨c, cs, hc, hd⟩ := natChars_cons i.natAbs
    have hrun : parseDigitsAux (c :: (cs ++ rest)) 0 = (i.natAbs, rest) := by
      rw [← List.cons_append, ← hc]
      exact parseDigitsAux_natChars i.natAbs rest hr
    rw [hc, List.cons_append, List.cons_append]
    simp only [parseVal]
    simp only [hd]
    simp only [hrun]
    have hneg : -((i.natAbs : Nat) : Int) = i := by omega
    simp only [hneg]
    simp
  · rw [intChars, if_neg hi]
    obtain ⟨c, cs, hc, hd⟩ := natChars_cons i.toNat
    have hrun : parseDigitsAux (c :: (cs ++ rest)) 0 = (i.toNat, rest) := by
      rw [← List.cons_append, ← hc]
      exact parseDigitsAux_natChars i.toNat rest hr
    rw [hc, List.cons_append, parseVal_digitHead f c (cs ++ rest) hd, hrun]
    have hpos : ((i.toNat : Nat) : Int) = i := by omega
    rw [hpos]

theorem parseVal_escapeString (f : Nat) (s : String) (rest : List Char) :
    parseVal (f + 1) (escapeString s ++ rest) = some (JVal.str s, rest) := by
  rw [escapeString, List.cons_append, List.append_assoc]
  have hb : (['"'] ++ rest : List Char) = '"' :: rest := rfl
  rw [hb]
  simp only [parseVal]
  rw [parseStringBody_escape s.data rest]
  simp

theorem parse_dump_mutual : ∀ fuel : Nat,
    (∀ (v : JVal) (rest : List Char), nonDigitStart rest = true →
        (dumpVal v).length < fuel →
        parseVal fuel (dumpVal v ++ rest) = some (v, rest))
  ∧ (∀ (xs : List JVal) (rest : List Char), (dumpArr xs).length + 2 ≤ fuel →
        parseElems fuel (dumpArr xs ++ ']' :: rest) = some (xs, rest))
  ∧ (∀ (kvs : List (String × JVal)) (rest : List Char),
        (dumpObj kvs).length + 2 ≤ fuel →
        parseMembers fuel (dumpObj kvs ++ '\x7d' :: rest) = some (kvs, rest)) := by
  intro fuel
  induction fuel using Nat.strong_induction_on with
  | _ fuel IH =>
    refine ⟨?_, ?_, ?_⟩
    · intro v rest hr hlen
      obtain ⟨f, rfl⟩ : ∃ f, fuel = f + 1 := ⟨fuel - 1, by omega⟩
      cases v with
      | null => simp [dumpVal, parseVal]
      | bool b => cases b <;> simp [dumpVal, parseVal]
      | num i =>
        have hd : dumpVal (JVal.num i) = intChars i := by simp [dumpVal]
        rw [hd]
        exact parseVal_intChars f i rest hr
      | str s =>
        have hd : dumpVal (JVal.str s) = escapeString s := by simp [dumpVal]
        rw [hd]
        exact parseVal_escapeString f s rest
      | arr xs =>
        have hd : dumpVal (JVal.arr xs) = '[' :: (dumpArr xs ++ [']']) := by simp [dumpVal]
        rw [hd] at hlen ⊢
        have hlx : (dumpArr xs).length + 2 ≤ f := by
          simp only [List.length_cons, List.length_append, List.length_singleton] at hlen
          omega
        have harr := (IH f (by omega)).2.1 xs rest hlx
        simp only [List.cons_append, List.append_assoc, List.singleton_append,
          List.nil_append]
        simp only [parseVal]
        rw [harr]
        simp
      | obj kvs =>
        have hd : dumpVal (JVal.obj kvs) = '\x7b' :: (dumpObj kvs ++ ['\x7d']) := by
          simp [dumpVal]
        rw [hd] at hlen ⊢
        have hlx : (dumpObj kvs).length + 2 ≤ f := by
          simp only [List.length_cons, List.length_append, List.length_singleton] at hlen
          omega
        have hobj := (IH f (by omega)).2.2 kvs rest hlx
        simp only [List.cons_append, List.append_assoc, List.singleton_append,
          List.nil_append]
        simp only [parseVal]
        rw [hobj]
        simp
    · intro xs rest hlen
      obtain ⟨f, rfl⟩ : ∃ f, fuel = f + 1 := ⟨fuel - 1, by omega⟩
      cases xs with
      | nil => simp [dumpArr, parseElems]
      | cons x xs =>
        obtain ⟨c, cs, hc, hne⟩ := dumpVal_cons x
        have hlenx := dumpVal_length_pos x
        cases xs with
        | nil =>
          have hd : dumpArr [x] = dumpVal x := by simp [dumpArr]
          rw [hd] at hlen ⊢
          have hlv : (dumpVal x).length < f := by omega
          have hv := (IH f (by omega)).1 x (']' :: rest) (by rfl) hlv
          rw [hc] at hv ⊢
          rw [List.cons_append] at hv ⊢
          simp only [parseElems]
          rw [if_neg hne, hv]
          simp
        | cons y ys =>
          have hd : dumpArr (x :: y :: ys) = dumpVal x ++ ',' :: dumpArr (y :: ys) := by
            simp [dumpArr]
          rw [hd] at hlen ⊢
          rw [List.append_assoc, List.cons_append]
          have hlens : (dumpVal x).length + (dumpArr (y :: ys)).length + 3 ≤ f + 1 := by
            simp only [List.length_append, List.length_cons] at hlen
            omega
          have hlv : (dumpVal x).length < f := by omega
          have hla : (dumpArr (y :: ys)).length + 2 ≤ f := by omega
          have hv := (IH f (by omega)).1 x (',' :: (dumpArr (y :: ys) ++ ']' :: rest))
            (by rfl) hlv
          have hrest := (IH f (by omega)).2.1 (y :: ys) rest hla
          rw [hc] at hv ⊢
          rw [List.cons_append] at hv ⊢
          simp only [parseElems]
          rw [if_neg hne, hv]
          simp [hrest]
    · intro kvs rest hlen
      obtain ⟨f, rfl⟩ : ∃ f, fuel = f + 1 := ⟨fuel - 1, by omega⟩
      cases kvs with
      | nil => simp [dumpObj, parseMembers]
      | cons kv kvs =>
        obtain ⟨k, v⟩ := kv
        cases kvs with
        | nil =>
          have hd : dumpObj [(k, v)] = escapeString k ++ ':' :: dumpVal v := by
            simp [dumpObj]
          rw [hd] at hlen ⊢
          have hlv : (dumpVal v).length < f := by
            simp only [List.length_append, List.length_cons] at hlen
            omega
          have hv := (IH f (by omega)).1 v ('\x7d' :: rest) (by rfl) hlv
          rw [escapeString]
          simp only [List.cons_append, List.nil_append, List.append_assoc,
            List.singleton_append]
          simp only [parseMembers]
          rw [parseStringBody_escape k.data (':' :: (dumpVal v ++ '\x7d' :: rest))]
          simp [hv]
        | cons m kvs2 =>
          have hd : dumpObj ((k, v) :: m :: kvs2)
              = escapeString k ++ ':' :: dumpVal v ++ ',' :: dumpObj (m :: kvs2) := by
            simp [dumpObj]
          rw [hd] at hlen ⊢
          have hlvpos := dumpVal_length_pos v
          have hlens : (escapeString k).length + (dumpVal v).length
              + (dumpObj (m :: kvs2)).length + 4 ≤ f + 2 := by
            simp only [List.length_append, List.length_cons] at hlen
            omega
          have hlv : (dumpVal v).length < f := by
            have hesc : 0 ≤ (escapeString k).length := by omega
            omega
          have hlo : (dumpObj (m :: kvs2)).length + 2 ≤ f := by omega
          have hv := (IH f (by omega)).1 v (',' :: (dumpObj (m :: kvs2) ++ '\x7d' :: rest))
            (by rfl) hlv
          have hrest := (IH f (by omega)).2.2 (m :: kvs2) rest hlo
          rw [escapeString]
          simp only [List.cons_append, List.nil_append, List.append_assoc,
            List.singleton_append]
          simp only [parseMembers]
          rw [parseStringBody_escape k.data
            (':' :: (dumpVal v ++ (',' :: (dumpObj (m :: kvs2) ++ '\x7d' :: rest))))]
          simp [hv, hrest]

theorem json_loads_dumps (v : JVal) : json_loads (json_dumps v) = some v := by
  have h := (parse_dump_mutual ((dumpVal v).length + 1)).1 v [] rfl (by omega)
  rw [List.append_nil] at h
  have hlen : (json_dumps v).length = (dumpVal v).length := rfl
  have hdata : (json_dumps v).data = dumpVal v := rfl
  rw [json_loads, hlen, hdata, h]

/-- C2: For every supplied filter mapping, field list, limit and page, the
request body built by `fetch_spending_data` is exactly the six-key dict
holding the supplied filters and fields verbatim, the limit and page values
unchanged, and the fixed sort key "Award Amount" with order "desc" — and no
other entries. -/
theorem claim_C2_request_body_exact (filters : JVal) (fields : List String)
    (limit page : Int) :
    fetch_request (some filters) (some fields) limit page
      = JVal.obj [("filters", filters),
                  ("fields", JVal.arr (fields.map JVal.str)),
                  ("limit", JVal.num limit),
                  ("page", JVal.num page),
                  ("sort", JVal.str "Award Amount"),
                  ("order", JVal.str "desc")]
      ∧ ∀ post : JVal → HttpResult,
          fetch_spending_data post (some filters) (some fields) limit page
            = fetch_handle page (post (fetch_request (some filters) (some fields)
                limit page)) :=
  ⟨rfl, fun _post => rfl⟩

/-- C6: With filters omitted the request uses the default one-year
time-period filter (exactly one entry, 2024-01-01 through 2024-12-31); with
fields omitted it uses the fixed default list of exactly eleven columns; the
limit and page parameters default to 100 and 1. -/
theorem claim_C6_defaults :
    fetch_request none none default_limit default_page
        = JVal.obj [("filters", default_filters),
                    ("fields", JVal.arr (default_fields.map JVal.str)),
                    ("limit", JVal.num 100),
                    ("page", JVal.num 1),
                    ("sort", JVal.str "Award Amount"),
                    ("order", JVal.str "desc")]
      ∧ default_filters
          = JVal.obj [("time_period",
              JVal.arr [JVal.obj [("start_date", JVal.str "2024-01-01"),
                                  ("end_date", JVal.str "2024-12-31")]])]
      ∧ default_fields.length = 11
      ∧ default_limit = 100 ∧ default_page = 1 :=
  ⟨rfl, rfl, rfl, rfl, rfl⟩

/-- C10: `save_to_json` on the `None` result of a failed fetch does not
reject it: it writes a file whose content is the JSON literal `null` and
returns the filename used, while `save_to_csv` on `None` raises an uncaught
`AttributeError` instead of returning an absent result. -/
theorem claim_C10_none_input (fn : Option String) (now : DateTime) :
    (save_to_json JVal.null fn now).file.2 = "null"
      ∧ (save_to_json JVal.null fn now).ret = (save_to_json JVal.null fn now).file.1
      ∧ save_to_csv JVal.null fn now = Except.error PyError.attributeError :=
  ⟨rfl, rfl, rfl⟩

/-- C8: Writing any structure with `save_to_json` and parsing the written
file's content back yields a structure equal to the input (round-trip
identity, modulo pretty-print formatting). -/
theorem claim_C8_json_roundtrip (data : JVal) (fn : Option String) (now : DateTime) :
    json_loads ((save_to_json data fn now).file.2) = some data :=
  json_loads_dumps data

/-- C5: On an input structure whose results sequence is empty, `save_to_csv`
logs a message and returns `None` without writing a file, while
`save_to_json` on the same structure still writes the full structure (with
its empty results sequence), which reads back equal. -/
theorem claim_C5_empty_results (kvs : List (String × JVal)) (fn : Option String)
    (now : DateTime)
    (h : (kvs.lookup "results").getD (JVal.arr []) = JVal.arr []) :
    save_to_csv (JVal.obj kvs) fn now
        = Except.ok ⟨none, none, [LogMsg.noResults]⟩
      ∧ (save_to_json (JVal.obj kvs) fn now).file.2 = json_dumps (JVal.obj kvs)
      ∧ json_loads ((save_to_json (JVal.obj kvs) fn now).file.2)
          = some (JVal.obj kvs) := by
  refine ⟨?_, rfl, json_loads_dumps (JVal.obj kvs)⟩
  simp [save_to_csv, jget, h, truthy]

theorem claim_C5_witness :
    ((([("results", JVal.arr [])] : List (String × JVal)).lookup "results").getD
        (JVal.arr []) = JVal.arr [])
      ∧ save_to_csv (JVal.obj [("results", JVal.arr [])]) (some "empty.csv")
          ⟨2024, 1, 2, 3, 4, 5⟩ = Except.ok ⟨none, none, [LogMsg.noResults]⟩ :=
  ⟨rfl, (claim_C5_empty_results [("results", JVal.arr [])] (some "empty.csv")
    ⟨2024, 1, 2, 3, 4, 5⟩ rfl).1⟩

/-- C1 as stated is false on the code: on result records whose first record
has keys "A", "B" and whose second carries the extra key "C",
`csv.DictWriter` (default `extrasaction='raise'`) raises `ValueError`, so no
two-column file with the "C" value silently dropped is produced. -/
theorem claim_C1_counterexample :
    save_to_csv
        (JVal.obj [("results", JVal.arr
          [JVal.obj [("A", JVal.num 1), ("B", JVal.num 2)],
           JVal.obj [("A", JVal.num 3), ("B", JVal.num 4), ("C", JVal.num 5)]])])
        (some "out.csv") ⟨2024, 1, 2, 3, 4, 5⟩
      = Except.error PyError.valueError := rfl

theorem dict_to_row_obj (fieldnames : List String) (kvs : List (String × JVal)) :
    dict_to_row fieldnames (JVal.obj kvs)
        = Except.ok (fieldnames.map fun k => (kvs.lookup k).getD (JVal.str ""))
      ∨ dict_to_row fieldnames (JVal.obj kvs) = Except.error PyError.valueError := by
  by_cases h : kvs.all (fun kv => fieldnames.contains kv.1) = true
  · left
    simp only [dict_to_row]
    rw [if_pos h]
  · right
    simp only [dict_to_row]
    rw [if_neg h]

theorem mapM_reaches_bad_row (fieldnames : List String) :
    ∀ (pre : List JVal) (bad : JVal) (post2 : List JVal),
    (∀ r ∈ pre, ∃ kvs, r = JVal.obj kvs) →
    dict_to_row fieldnames bad = Except.error PyError.valueError →
    (pre ++ bad :: post2).mapM (dict_to_row fieldnames)
      = Except.error PyError.valueError := by
  intro pre
  induction pre with
  | nil =>
    intro bad post2 _ hbad
    rw [List.nil_append, List.mapM_cons, hbad]
    rfl
  | cons r pre ih =>
    intro bad post2 hobj hbad
    rw [List.cons_append, List.mapM_cons]
    obtain ⟨kvs, rfl⟩ := hobj r (List.mem_cons_self r pre)
    rcases dict_to_row_obj fieldnames kvs with hok | herr
    · rw [hok, ih bad post2 (fun x hx => hobj x (List.mem_cons_of_mem _ hx)) hbad]
      rfl
    · rw [herr]
      rfl

theorem save_to_csv_row_error (r0kvs : List (String × JVal)) (rest : List JVal)
    (fn : Option String) (now : DateTime) (e : PyError)
    (hmap : (JVal.obj r0kvs :: rest).mapM (dict_to_row (r0kvs.map Prod.fst))
        = Except.error e) :
    save_to_csv (JVal.obj [("results",
        JVal.arr (JVal.obj r0kvs :: rest))]) fn now = Except.error e := by
  have hstep : save_to_csv (JVal.obj [("results",
        JVal.arr (JVal.obj r0kvs :: rest))]) fn now
      = (match (JVal.obj r0kvs :: rest).mapM (dict_to_row (r0kvs.map Prod.fst)) with
         | Except.error e2 => Except.error e2
         | Except.ok outRows =>
             Except.ok ⟨some (fn.getD (autoName ".csv" now)),
               some (fn.getD (autoName ".csv" now),
                 (r0kvs.map Prod.fst).map JVal.str :: outRows),
               [LogMsg.savedTo (fn.getD (autoName ".csv" now))]⟩) := rfl
  rw [hstep, hmap]

/-- C1 amended: the header is derived from the first record's key order
("A", "B"), but when some later record carries the extra key "C" (the
records between, like all result records, being mappings), the CSV writer
raises an uncaught `ValueError` (its default `extrasaction='raise'`) instead
of silently dropping the value, so the call — with a caller-supplied or
auto-generated filename — produces no completed file outcome. -/
theorem claim_C1_extra_key_raises (v1 v2 v3 v4 v5 : JVal)
    (mid post : List JVal) (fn : Option String) (now : DateTime)
    (hmid : ∀ r ∈ mid, ∃ kvs, r = JVal.obj kvs) :
    save_to_csv
        (JVal.obj [("results", JVal.arr
          (JVal.obj [("A", v1), ("B", v2)]
            :: (mid ++ JVal.obj [("A", v3), ("B", v4), ("C", v5)] :: post)))])
        fn now
      = Except.error PyError.valueError := by
  have hpre : ∀ r ∈ (JVal.obj [("A", v1), ("B", v2)] :: mid),
      ∃ kvs, r = JVal.obj kvs := by
    intro r hr
    rcases List.mem_cons.mp hr with rfl | hr2
    · exact ⟨[("A", v1), ("B", v2)], rfl⟩
    · exact hmid r hr2
  have hbad : dict_to_row ["A", "B"] (JVal.obj [("A", v3), ("B", v4), ("C", v5)])
      = Except.error PyError.valueError := rfl
  have hmap := mapM_reaches_bad_row ["A", "B"]
    (JVal.obj [("A", v1), ("B", v2)] :: mid)
    (JVal.obj [("A", v3), ("B", v4), ("C", v5)]) post hpre hbad
  rw [List.cons_append] at hmap
  exact save_to_csv_row_error [("A", v1), ("B", v2)]
    (mid ++ JVal.obj [("A", v3), ("B", v4), ("C", v5)] :: post) fn now
    PyError.valueError hmap

theorem claim_C1_witness :
    (∀ r ∈ [JVal.obj [("A", JVal.num 7), ("B", JVal.num 8)]],
        ∃ kvs, r = JVal.obj kvs)
      ∧ save_to_csv
          (JVal.obj [("results", JVal.arr
            (JVal.obj [("A", JVal.num 1), ("B", JVal.num 2)]
              :: ([JVal.obj [("A", JVal.num 7), ("B", JVal.num 8)]]
                  ++ JVal.obj [("A", JVal.num 3), ("B", JVal.num 4),
                               ("C", JVal.num 5)] :: [JVal.null])))])
          none ⟨2024, 1, 2, 3, 4, 5⟩
        = Except.error PyError.valueError :=
  ⟨fun r hr => ⟨[("A", JVal.num 7), ("B", JVal.num 8)],
      by rw [List.mem_singleton] at hr; exact hr⟩,
    claim_C1_extra_key_raises (JVal.num 1) (JVal.num 2) (JVal.num 3)
      (JVal.num 4) (JVal.num 5)
      [JVal.obj [("A", JVal.num 7), ("B", JVal.num 8)]] [JVal.null]
      none ⟨2024, 1, 2, 3, 4, 5⟩
      (fun r hr => ⟨[("A", JVal.num 7), ("B", JVal.num 8)],
        by rw [List.mem_singleton] at hr; exact hr⟩)⟩

/-- C4 as stated is false on the code: a 200 response with the well-formed
JSON body `[]` (not an object) makes the success path's
`len(data.get('results', []))` raise an uncaught `AttributeError` instead of
returning the parsed body. -/
theorem claim_C4_counterexample :
    (fetch_handle 1 (HttpResult.resp 200 "[]")).1
      = Except.error PyError.attributeError := rfl

/-- C4 amended: for every 2xx response whose well-formed JSON body is an
object whose "results" entry (when present) is a sized value — as every real
response body is — the fetch returns the parsed body unmodified and logs the
record count; in particular a "results" list of N records comes back as
exactly that list of N entries. -/
theorem claim_C4_success_returns_body (page : Int) (status : Nat) (body : String)
    (kvs : List (String × JVal)) (n : Nat)
    (h2 : 200 ≤ status) (h3 : status < 300)
    (hparse : json_loads body = some (JVal.obj kvs))
    (hlen : pyLen ((kvs.lookup "results").getD (JVal.arr [])) = Except.ok n) :
    (fetch_handle page (HttpResult.resp status body)).1
        = Except.ok (some (JVal.obj kvs))
      ∧ (fetch_handle page (HttpResult.resp status body)).2
          = [LogMsg.fetching page, LogMsg.success n]
      ∧ (∀ l, kvs.lookup "results" = some (JVal.arr l) →
          jget (JVal.obj kvs) "results" (JVal.arr []) = Except.ok (JVal.arr l)
            ∧ l.length = l.length) := by
  have hnot : ¬(400 ≤ status ∧ status < 600) := by omega
  refine ⟨?_, ?_, ?_⟩
  · simp [fetch_handle, hnot, hparse, jget, hlen]
  · simp [fetch_handle, hnot, hparse, jget, hlen]
  · intro l hl
    exact ⟨by simp [jget, hl], rfl⟩

theorem claim_C4_witness :
    (200 ≤ 200 ∧ 200 < 300 ∧ json_loads "\x7b\x7d" = some (JVal.obj [])
        ∧ pyLen ((([] : List (String × JVal)).lookup "results").getD (JVal.arr []))
            = Except.ok 0)
      ∧ (fetch_handle 1 (HttpResult.resp 200 "\x7b\x7d")).1
          = Except.ok (some (JVal.obj [])) :=
  ⟨⟨by decide, by decide, rfl, rfl⟩,
    (claim_C4_success_returns_body 1 200 "\x7b\x7d" [] 0 (by decide) (by decide)
      rfl rfl).1⟩

/-- C3 as stated is false on the code: `raise_for_status` raises only for
statuses 400-599, so a non-2xx status such as 304 with a well-formed object
body is returned as data, not as `None`. -/
theorem claim_C3_counterexample :
    (fetch_handle 1 (HttpResult.resp 304 "\x7b\x7d")).1
      = Except.ok (some (JVal.obj [])) := rfl

/-- C3 amended: for every failing request — transport error, 4xx or 5xx HTTP
status, or a response body that is not well-formed JSON — the fetch logs an
error message, swallows any failure of the best-effort detail extraction,
returns `None`, and raises no uncaught error. -/
theorem claim_C3_failure_returns_none (page : Int) (r : HttpResult)
    (h : r = HttpResult.netErr
       ∨ (∃ s b, r = HttpResult.resp s b ∧ 400 ≤ s ∧ s < 600)
       ∨ (∃ s b, r = HttpResult.resp s b ∧ json_loads b = none)) :
    (fetch_handle page r).1 = Except.ok none
      ∧ LogMsg.fetchError ∈ (fetch_handle page r).2 := by
  rcases h with rfl | ⟨s, b, rfl, h4, h6⟩ | ⟨s, b, rfl, hbad⟩
  · exact ⟨rfl, by simp [fetch_handle]⟩
  · have hin : 400 ≤ s ∧ s < 600 := ⟨h4, h6⟩
    constructor <;> simp [fetch_handle, hin]
  · by_cases h46 : 400 ≤ s ∧ s < 600
    · constructor <;> simp [fetch_handle, h46]
    · constructor <;> simp [fetch_handle, h46, hbad]

theorem claim_C3_witness :
    (fetch_handle 7 HttpResult.netErr).1 = Except.ok none
      ∧ LogMsg.fetchError ∈ (fetch_handle 7 HttpResult.netErr).2 :=
  claim_C3_failure_returns_none 7 HttpResult.netErr (Or.inl rfl)

/-- C7: Fetching three pages whose bodies each hold a results list and
concatenating client-side in call order yields a combined sequence whose
length is the sum of the three pages' result counts. -/
theorem claim_C7_three_pages (kvs1 kvs2 kvs3 : List (String × JVal))
    (l1 l2 l3 : List JVal)
    (h1 : kvs1.lookup "results" = some (JVal.arr l1))
    (h2 : kvs2.lookup "results" = some (JVal.arr l2))
    (h3 : kvs3.lookup "results" = some (JVal.arr l3)) :
    example_4_results (Except.ok (some (JVal.obj kvs1)))
        (Except.ok (some (JVal.obj kvs2))) (Except.ok (some (JVal.obj kvs3)))
      = Except.ok (l1 ++ (l2 ++ l3))
    ∧ (l1 ++ (l2 ++ l3)).length = l1.length + l2.length + l3.length := by
  have ne1 : truthy (JVal.obj kvs1) = true := by
    cases kvs1 with
    | nil => simp [List.lookup] at h1
    | cons a l => simp [truthy]
  have ne2 : truthy (JVal.obj kvs2) = true := by
    cases kvs2 with
    | nil => simp [List.lookup] at h2
    | cons a l => simp [truthy]
  have ne3 : truthy (JVal.obj kvs3) = true := by
    cases kvs3 with
    | nil => simp [List.lookup] at h3
    | cons a l => simp [truthy]
  constructor
  · simp [example_4_results, page_step, ne1, ne2, ne3, json_contains, jget,
      iterElems, h1, h2, h3]
  · simp only [List.length_append]
    omega

theorem claim_C7_witness :
    (([("results", JVal.arr [JVal.null, JVal.null])] :
        List (String × JVal)).lookup "results" = some (JVal.arr [JVal.null, JVal.null]))
      ∧ example_4_results
          (Except.ok (some (JVal.obj [("results", JVal.arr [JVal.null, JVal.null])])))
          (Except.ok (some (JVal.obj [("results", JVal.arr [])])))
          (Except.ok (some (JVal.obj [("results", JVal.arr [JVal.bool true])])))
        = Except.ok ([JVal.null, JVal.null] ++ ([] ++ [JVal.bool true])) :=
  ⟨rfl, (claim_C7_three_pages
    [("results", JVal.arr [JVal.null, JVal.null])]
    [("results", JVal.arr [])]
    [("results", JVal.arr [JVal.bool true])]
    [JVal.null, JVal.null] [] [JVal.bool true] rfl rfl rfl).1⟩

theorem save_to_csv_written_name (data : JVal) (fn : Option String) (now : DateTime)
    (o : CsvOutcome) (nm : String) (rows : List (List JVal))
    (hok : save_to_csv data fn now = Except.ok o)
    (hfile : o.file = some (nm, rows)) :
    o.ret = some nm ∧ nm = fn.getD (autoName ".csv" now) := by
  simp only [save_to_csv] at hok
  cases hjg : jget data "results" (JVal.arr []) with
  | error e =>
    rw [hjg] at hok
    exact absurd hok (by simp)
  | ok results =>
    rw [hjg] at hok
    simp only [] at hok
    by_cases htr : truthy results = true
    · rw [if_pos htr] at hok
      cases results with
      | arr rows2 =>
        cases rows2 with
        | nil => exact absurd hok (by simp)
        | cons r0 rs =>
          cases r0 with
          | obj kvs0 =>
            simp only [] at hok
            cases hm : (JVal.obj kvs0 :: rs).mapM (dict_to_row (kvs0.map Prod.fst)) with
            | error e =>
              rw [hm] at hok
              exact absurd hok (by simp)
            | ok outRows =>
              rw [hm] at hok
              have ho : o = ⟨some (fn.getD (autoName ".csv" now)),
                  some (fn.getD (autoName ".csv" now),
                    (kvs0.map Prod.fst).map JVal.str :: outRows),
                  [LogMsg.savedTo (fn.getD (autoName ".csv" now))]⟩ := by
                cases hok
                rfl
              subst ho
              simp only [CsvOutcome.ret, CsvOutcome.file, Option.some_inj,
                Prod.mk.injEq] at hfile ⊢
              exact ⟨hfile.1, hfile.1.symm⟩
          | null => exact absurd hok (by simp)
          | bool b => exact absurd hok (by simp)
          | num i => exact absurd hok (by simp)
          | str s => exact absurd hok (by simp)
          | arr l => exact absurd hok (by simp)
      | null => exact absurd hok (by simp)
      | bool b => exact absurd hok (by simp)
      | num i => exact absurd hok (by simp)
      | str s => exact absurd hok (by simp)
      | obj kvs1 => exact absurd hok (by simp)
    · rw [if_neg htr] at hok
      have ho : o = ⟨none, none, [LogMsg.noResults]⟩ := by
        cases hok
        rfl
      subst ho
      simp at hfile

/-- C9: With no caller-supplied filename, the generated name has the form
`usaspending_data_<YYYYMMDD>_<HHMMSS>.json` / `.csv` (eight date digits,
an underscore, six time digits); and whenever either exporter writes a
file, it returns the filename it used. -/
theorem claim_C9_filenames (t : DateTime) (data : JVal)
    (hy1 : 1000 ≤ t.year) (hy2 : t.year ≤ 9999) (hm : t.month ≤ 99)
    (hd : t.day ≤ 99) (hh : t.hour ≤ 99) (hmi : t.minute ≤ 99)
    (hs : t.second ≤ 99) :
    (∃ d8 t6 : List Char,
        autoName ".json" t
            = "usaspending_data_" ++ String.mk d8 ++ "_" ++ String.mk t6 ++ ".json"
          ∧ autoName ".csv" t
              = "usaspending_data_" ++ String.mk d8 ++ "_" ++ String.mk t6 ++ ".csv"
          ∧ d8.length = 8 ∧ t6.length = 6
          ∧ (∀ c ∈ d8, c.isDigit = true) ∧ (∀ c ∈ t6, c.isDigit = true))
      ∧ (save_to_json data none t).file.1 = autoName ".json" t
      ∧ (∀ (d2 : JVal) (fn : Option String),
          (save_to_json d2 fn t).ret = (save_to_json d2 fn t).file.1)
      ∧ (∀ (d2 : JVal) (fn : Option String) (o : CsvOutcome) (nm : String)
          (rows : List (List JVal)),
          save_to_csv d2 fn t = Except.ok o → o.file = some (nm, rows) →
          o.ret = some nm ∧ (fn = none → nm = autoName ".csv" t)) := by
  refine ⟨⟨pad4 t.year ++ pad2 t.month ++ pad2 t.day,
          pad2 t.hour ++ pad2 t.minute ++ pad2 t.second,
          rfl, rfl, rfl, rfl, ?_, ?_⟩, rfl, fun d2 fn => rfl, ?_⟩
  · intro c hc
    simp only [pad4, pad2, List.append_assoc, List.cons_append, List.nil_append,
      List.mem_cons, List.not_mem_nil, or_false] at hc
    rcases hc with rfl | rfl | rfl | rfl | rfl | rfl | rfl | rfl <;>
      exact digitChar_isDigit _ (by omega)
  · intro c hc
    simp only [pad2, List.append_assoc, List.cons_append, List.nil_append,
      List.mem_cons, List.not_mem_nil, or_false] at hc
    rcases hc with rfl | rfl | rfl | rfl | rfl | rfl <;>
      exact digitChar_isDigit _ (by omega)
  · intro d2 fn o nm rows hok hfile
    obtain ⟨h1, h2⟩ := save_to_csv_written_name d2 fn t o nm rows hok hfile
    refine ⟨h1, fun hfn => ?_⟩
    rw [h2, hfn]
    rfl

theorem claim_C9_witness :
    (1000 ≤ (2024 : Nat) ∧ (12 : Nat) ≤ 99)
      ∧ ((save_to_json (JVal.num 3) none ⟨2024, 12, 31, 23, 59, 7⟩).file.1
          = autoName ".json" ⟨2024, 12, 31, 23, 59, 7⟩
        ∧ autoName ".json" ⟨2024, 12, 31, 23, 59, 7⟩
            = "usaspending_data_20241231_235907.json") :=
  ⟨⟨by decide, by decide⟩,
    (claim_C9_filenames ⟨2024, 12, 31, 23, 59, 7⟩ (JVal.num 3)
      (by decide) (by decide) (by decide) (by decide) (by decide) (by decide)
      (by decide)).2.1,
    by decide⟩
